import Mathlib

/-!
Verification of the school_mgt grading, CBT scoring/ranking, result-locking
and current-session logic, shallowly embedded from `core/views.py` and
`core/models.py`. Scores are Django `Decimal` values, embedded as rationals;
database tables are embedded as lists of records, and each view handler as a
pure function from the relevant state to the new state plus an outcome.
-/

namespace SchoolMgt

/-- Grade-and-comment table of the bulk upload path
(`upload_result` in `core/views.py`): ascending inclusive upper bounds,
first match wins, on `total = test_score + exam_score`. -/
def uploadGrade (test_score exam_score : ℚ) : String × String :=
  let total := test_score + exam_score
  if total ≤ 39 then ("F", "Poor performance. Needs improvement.")
  else if total ≤ 44 then ("E", "Below average. Put in more effort.")
  else if total ≤ 49 then ("D", "Fair, but can do better.")
  else if total ≤ 59 then ("C", "Average, needs improvement.")
  else if total ≤ 69 then ("B", "Good performance.")
  else if total ≤ 89 then ("A", "Very good! Keep it up.")
  else if total ≤ 100 then ("A*", "Excellent! Outstanding performance.")
  else ("", "")

/-- Grade-and-comment table of the admin single-result edit path
(`admin_edit_result` in `core/views.py`): descending inclusive lower bounds
on `total = test_score + exam_score`. -/
def adminEditGrade (test_score exam_score : ℚ) : String × String :=
  let total := test_score + exam_score
  if total ≥ 70 then ("A", "Excellent performance.")
  else if total ≥ 60 then ("B", "Very good work.")
  else if total ≥ 50 then ("C", "Good effort, can improve.")
  else if total ≥ 45 then ("D", "Needs improvement.")
  else ("F", "Poor performance. Extra effort required.")

/-- A row of the `Result` table (`core/models.py`), with the student's
classroom denormalised onto the row (the views filter on
`student__classroom_id`). -/
structure ResultRec where
  student : Nat
  classroom : Nat
  subject : Nat
  term : Nat
  session : Nat
  test_score : ℚ
  exam_score : ℚ
  grade : String
  comment : String
  locked : Bool
deriving DecidableEq, Repr

/-- `admin_edit_result` grade recomputation: the form-saved instance has its
`grade` and `comment` overwritten by the computed table values before save. -/
def admin_edit_result (r : ResultRec) : ResultRec :=
  let gc := adminEditGrade r.test_score r.exam_score
  { r with grade := gc.1, comment := gc.2 }

/-- The index-and-rank walk of `teacher_cbt_results` (`core/views.py`): carries
the 0-based position `i`, the current `rank` and the previous score; an element
strictly below the previous score starts rank `i + 1` (1-based position),
otherwise it inherits the current rank. -/
def rankLoop (i : Nat) (rank : Nat) (prev : Option Nat) : List Nat → List Nat
  | [] => []
  | s :: rest =>
      let r := match prev with
        | none => i + 1
        | some p => if s < p then i + 1 else rank
      r :: rankLoop (i + 1) r (some s) rest

/-- Rank assignment of `teacher_cbt_results` over an already-sorted score
list: `rank = 1`, `previous_score = None` at entry. -/
def assignRanks (scores : List Nat) : List Nat := rankLoop 0 1 none scores

/-- `result_data.sort(key=itemgetter score, reverse=True)`: scores sorted in
descending order. -/
def sortDesc (scores : List Nat) : List Nat := scores.insertionSort (· ≥ ·)

/-- Full ranking pass of `teacher_cbt_results`: sort the correct-counts
descending, then walk them assigning ranks. -/
def teacher_cbt_ranks (scores : List Nat) : List Nat := assignRanks (sortDesc scores)

/-- The ranked table the view renders, keyed by score: each sorted
correct-count paired with its assigned rank. -/
def rankedPairs (scores : List Nat) : List (Nat × Nat) :=
  (sortDesc scores).zip (teacher_cbt_ranks scores)

/-- C1 (amended). The bulk-upload grading is the ascending first-match band
table on `total = test_score + exam_score`; every total greater than 100 maps
to `("","")`, but a total less than 0 is caught by the first band and maps to
F, not to `("","")`; the result depends only on the sum. -/
theorem upload_grade_bands (x y : ℚ) :
    (x + y ≤ 39 → uploadGrade x y = ("F", "Poor performance. Needs improvement.")) ∧
    (39 < x + y → x + y ≤ 44 → uploadGrade x y = ("E", "Below average. Put in more effort.")) ∧
    (44 < x + y → x + y ≤ 49 → uploadGrade x y = ("D", "Fair, but can do better.")) ∧
    (49 < x + y → x + y ≤ 59 → uploadGrade x y = ("C", "Average, needs improvement.")) ∧
    (59 < x + y → x + y ≤ 69 → uploadGrade x y = ("B", "Good performance.")) ∧
    (69 < x + y → x + y ≤ 89 → uploadGrade x y = ("A", "Very good! Keep it up.")) ∧
    (89 < x + y → x + y ≤ 100 → uploadGrade x y = ("A*", "Excellent! Outstanding performance.")) ∧
    (100 < x + y → uploadGrade x y = ("", "")) ∧
    (∀ x' y' : ℚ, x + y = x' + y' → uploadGrade x y = uploadGrade x' y') := by
  have hfun : ∀ x' y' : ℚ, x + y = x' + y' → uploadGrade x y = uploadGrade x' y' := by
    intro x' y' h
    simp only [uploadGrade, h]
  refine ⟨?_, ?_, ?_, ?_, ?_, ?_, ?_, ?_, hfun⟩ <;>
    (intros; simp only [uploadGrade]; split_ifs <;> first | rfl | linarith)

/-- Witness for `upload_grade_bands` at concrete scores. -/
theorem upload_grade_bands_witness :
    uploadGrade 20 10 = ("F", "Poor performance. Needs improvement.") ∧
    uploadGrade 90 5 = ("A*", "Excellent! Outstanding performance.") ∧
    uploadGrade 101 0 = ("", "") := by
  refine ⟨(upload_grade_bands 20 10).1 (by norm_num), ?_, ?_⟩
  · exact (upload_grade_bands 90 5).2.2.2.2.2.2.1 (by norm_num) (by norm_num)
  · exact (upload_grade_bands 101 0).2.2.2.2.2.2.2.1 (by norm_num)

/-- C1 counterexample: a negative total does not map to the empty grade and
empty comment; it falls into the F band. -/
theorem upload_grade_negative_total_not_empty :
    (-1 : ℚ) + 0 < 0 ∧
    uploadGrade (-1) 0 = ("F", "Poor performance. Needs improvement.") ∧
    uploadGrade (-1) 0 ≠ ("", "") := by
  have h2 : uploadGrade (-1) 0 = ("F", "Poor performance. Needs improvement.") := by
    simp only [uploadGrade]
    norm_num
  exact ⟨by norm_num, h2, by rw [h2]; decide⟩

/-- C6. The admin single-result edit path grades by descending thresholds
70/60/50/45 with its own comments and no A* or E grade, differs from the
bulk-upload table, and overwrites whatever grade and comment the form
submitted. -/
theorem admin_edit_grade_table (x y : ℚ) :
    (x + y ≥ 70 → adminEditGrade x y = ("A", "Excellent performance.")) ∧
    (60 ≤ x + y → x + y < 70 → adminEditGrade x y = ("B", "Very good work.")) ∧
    (50 ≤ x + y → x + y < 60 → adminEditGrade x y = ("C", "Good effort, can improve.")) ∧
    (45 ≤ x + y → x + y < 50 → adminEditGrade x y = ("D", "Needs improvement.")) ∧
    (x + y < 45 → adminEditGrade x y = ("F", "Poor performance. Extra effort required.")) ∧
    ((adminEditGrade x y).1 ≠ "A*" ∧ (adminEditGrade x y).1 ≠ "E") ∧
    (∀ r : ResultRec, r.test_score = x → r.exam_score = y →
      admin_edit_result r =
        { r with grade := (adminEditGrade x y).1, comment := (adminEditGrade x y).2 }) ∧
    (∀ g c : String, ∀ r : ResultRec,
      admin_edit_result { r with grade := g, comment := c } = admin_edit_result r) ∧
    adminEditGrade 90 0 ≠ uploadGrade 90 0 := by
  refine ⟨?_, ?_, ?_, ?_, ?_, ?_, ?_, ?_, ?_⟩
  · intro h; simp only [adminEditGrade]; split_ifs <;> first | rfl | linarith
  · intro h h'; simp only [adminEditGrade]; split_ifs <;> first | rfl | linarith
  · intro h h'; simp only [adminEditGrade]; split_ifs <;> first | rfl | linarith
  · intro h h'; simp only [adminEditGrade]; split_ifs <;> first | rfl | linarith
  · intro h; simp only [adminEditGrade]; split_ifs <;> first | rfl | linarith
  · simp only [adminEditGrade]; split_ifs <;> exact ⟨by decide, by decide⟩
  · intro r ht he
    simp only [admin_edit_result, ht, he]
  · intro g c r
    simp only [admin_edit_result]
  · have h1 : adminEditGrade 90 0 = ("A", "Excellent performance.") := by
      simp only [adminEditGrade]; norm_num
    have h2 : uploadGrade 90 0 = ("A*", "Excellent! Outstanding performance.") := by
      simp only [uploadGrade]; norm_num
    rw [h1, h2]; decide

/-- Witness for `admin_edit_grade_table` at concrete scores. -/
theorem admin_edit_grade_table_witness :
    adminEditGrade 40 35 = ("A", "Excellent performance.") ∧
    adminEditGrade 10 10 = ("F", "Poor performance. Extra effort required.") := by
  exact ⟨(admin_edit_grade_table 40 35).1 (by norm_num),
    (admin_edit_grade_table 10 10).2.2.2.2.1 (by norm_num)⟩

/-- The ranked output has the same length as its input. -/
theorem rankLoop_length (i r : Nat) (p : Option Nat) (l : List Nat) :
    (rankLoop i r p l).length = l.length := by
  induction l generalizing i r p with
  | nil => rfl
  | cons s rest ih => simp [rankLoop, ih]

/-- One step of the rank walk: the element after position `k` either starts a
new rank at its own position (strictly smaller score) or inherits the rank at
position `k`. -/
theorem rankLoop_getD_succ (l : List Nat) (i0 r0 : Nat) (p0 : Option Nat) (k : Nat)
    (h : k + 1 < l.length) :
    (rankLoop i0 r0 p0 l).getD (k + 1) 0 =
      if l.getD (k + 1) 0 < l.getD k 0 then i0 + k + 2
      else (rankLoop i0 r0 p0 l).getD k 0 := by
  induction l generalizing i0 r0 p0 k with
  | nil => simp at h
  | cons s rest ih =>
    cases k with
    | zero =>
      cases rest with
      | nil => simp at h
      | cons s2 rest2 =>
        simp only [rankLoop, List.getD_cons_succ, List.getD_cons_zero]
    | succ k2 =>
      have h2 : k2 + 1 < rest.length := by
        simpa using Nat.lt_of_succ_lt_succ h
      simp only [rankLoop, List.getD_cons_succ]
      rw [ih _ _ _ k2 h2]
      congr 1
      omega

/-- In a descending-sorted list each element is at most its predecessor. -/
theorem sorted_ge_getD : ∀ (l : List Nat), l.Sorted (fun a b => a ≥ b) →
    ∀ (k : Nat), k + 1 < l.length → l.getD (k + 1) 0 ≤ l.getD k 0 := by
  intro l h
  induction h with
  | nil => intro k hk; simp at hk
  | cons ha _ ih =>
    intro k hk
    cases k with
    | zero =>
      rename_i a rest _
      cases rest with
      | nil => simp at hk
      | cons b rest2 =>
        simpa using ha b (List.mem_cons_self b rest2)
    | succ k2 =>
      rename_i a rest _
      have hk2 : k2 + 1 < rest.length := by
        simpa using Nat.lt_of_succ_lt_succ hk
      simpa using ih k2 hk2

/-- C2. Over descending-sorted correct-counts, the teacher CBT results view
assigns skip-style competition ranks: an element tied with its predecessor
inherits its rank, a strictly smaller element gets its own 1-based position;
the first element gets rank 1; `[8,8,6,5,5]` yields `[1,1,3,4,4]`; the empty
list yields the empty list; a single submission gets rank 1. -/
theorem teacher_cbt_ranking (l : List Nat) (hs : l.Sorted (fun a b => a ≥ b)) :
    (∀ k, k + 1 < l.length →
      (l.getD (k + 1) 0 = l.getD k 0 →
        (assignRanks l).getD (k + 1) 0 = (assignRanks l).getD k 0) ∧
      (l.getD (k + 1) 0 ≠ l.getD k 0 →
        (assignRanks l).getD (k + 1) 0 = k + 2)) ∧
    (l ≠ [] → (assignRanks l).getD 0 0 = 1) ∧
    teacher_cbt_ranks [8, 8, 6, 5, 5] = [1, 1, 3, 4, 4] ∧
    teacher_cbt_ranks [] = [] ∧
    (∀ s : Nat, teacher_cbt_ranks [s] = [1]) := by
  refine ⟨?_, ?_, by decide, rfl, fun s => rfl⟩
  · intro k hk
    have hstep := rankLoop_getD_succ l 0 1 none k hk
    have hle := sorted_ge_getD l hs k hk
    constructor
    · intro heq
      simp only [assignRanks]
      rw [hstep, if_neg (by omega)]
    · intro hne
      simp only [assignRanks]
      rw [hstep, if_pos (by omega)]
      omega
  · intro hne
    cases l with
    | nil => exact absurd rfl hne
    | cons s rest => rfl

/-- Witness for `teacher_cbt_ranking` on the sorted list `[5, 3, 3]`. -/
theorem teacher_cbt_ranking_witness :
    (assignRanks [5, 3, 3]).getD 1 0 = 2 ∧
    (assignRanks [5, 3, 3]).getD 2 0 = (assignRanks [5, 3, 3]).getD 1 0 ∧
    (assignRanks [5, 3, 3]).getD 0 0 = 1 ∧
    teacher_cbt_ranks [8, 8, 6, 5, 5] = [1, 1, 3, 4, 4] := by
  have h := teacher_cbt_ranking [5, 3, 3] (by decide)
  refine ⟨?_, ?_, h.2.1 (by decide), h.2.2.1⟩
  · simpa using (h.1 0 (by norm_num)).2 (by decide)
  · exact (h.1 1 (by norm_num)).1 (by decide)

/-- C7. The ranking pass is permutation-invariant: two inputs holding the same
multiset of correct-counts produce the identical (score, rank) table, and
ranking an input already sorted by score gives the same table as ranking the
original. -/
theorem cbt_rank_perm_invariant :
    (∀ l l2 : List Nat, l.Perm l2 → rankedPairs l = rankedPairs l2) ∧
    (∀ l : List Nat, rankedPairs (sortDesc l) = rankedPairs l) := by
  have hsort : ∀ l l2 : List Nat, l.Perm l2 → sortDesc l = sortDesc l2 := by
    intro l l2 hp
    show List.insertionSort (fun a b => a ≥ b) l = List.insertionSort (fun a b => a ≥ b) l2
    refine List.eq_of_perm_of_sorted ?_ (List.sorted_insertionSort _ l)
      (List.sorted_insertionSort _ l2)
    exact (List.perm_insertionSort _ l).trans (hp.trans (List.perm_insertionSort _ l2).symm)
  constructor
  · intro l l2 hp
    simp only [rankedPairs, teacher_cbt_ranks, hsort l l2 hp]
  · intro l
    have hp : (sortDesc l).Perm l := List.perm_insertionSort _ l
    simp only [rankedPairs, teacher_cbt_ranks, hsort _ _ hp]

/-- Witness for `cbt_rank_perm_invariant` on a permuted pair. -/
theorem cbt_rank_perm_invariant_witness :
    rankedPairs [3, 1, 2] = rankedPairs [1, 2, 3] ∧
    rankedPairs (sortDesc [3, 1, 2]) = rankedPairs [3, 1, 2] := by
  exact ⟨cbt_rank_perm_invariant.1 [3, 1, 2] [1, 2, 3] (by decide),
    cbt_rank_perm_invariant.2 [3, 1, 2]⟩

/-- One `CBTAnswer` row joined with its question's `correct_option`
(`core/models.py`). -/
structure CBTAnswerRec where
  question : Nat
  selected_option : String
  correct_option : String
deriving DecidableEq, Repr

/-- Round a rational to the nearest integer, ties to even, as Python's
`round` resolves halves. -/
def roundHalfEven (q : ℚ) : ℤ :=
  let f := ⌊q⌋
  if q - f < 1 / 2 then f
  else if q - f > 1 / 2 then f + 1
  else if f % 2 = 0 then f else f + 1

/-- Python `round(x, 2)`: round to 2 decimal places. -/
def roundTo2 (q : ℚ) : ℚ := (roundHalfEven (q * 100) : ℚ) / 100

/-- CBT scoring of one submission (`view_cbt_result` and the per-submission
loop of `teacher_cbt_results` in `core/views.py`): `total` counts the recorded
answers, `correct` counts answers matching their question's `correct_option`,
`percentage` is `correct / total * 100` rounded to 2 places, with the whole
quotient replaced by `0` when `total` is `0`. Returns
`(correct, total, percentage)`. -/
def cbt_score (answers : List CBTAnswerRec) : Nat × Nat × ℚ :=
  let total := answers.length
  let correct := answers.countP (fun a => a.selected_option == a.correct_option)
  let percentage := if total > 0 then ((correct : ℚ) / (total : ℚ)) * 100 else 0
  (correct, total, roundTo2 percentage)

/-- Outcome reported by the bulk lock toggle. -/
inductive ToggleOutcome where
  | locked
  | unlocked
  | noop
deriving DecidableEq, Repr

/-- The scope filter of `toggle_class_results_lock`: results of the given
classroom, term and session. -/
def inLockScope (classroom term session : Nat) (r : ResultRec) : Bool :=
  r.classroom == classroom && r.term == term && r.session == session

/-- `toggle_class_results_lock` (`core/views.py`): if the scoped set is
non-empty and any of its records is unlocked, lock them all; if non-empty and
all locked, unlock them all; if empty, warn and change nothing. -/
def toggle_class_results_lock (db : List ResultRec) (classroom term session : Nat) :
    List ResultRec × ToggleOutcome :=
  let results := db.filter (inLockScope classroom term session)
  if results.isEmpty then (db, ToggleOutcome.noop)
  else
    let any_unlocked := results.any (fun r => !r.locked)
    let new_status := if any_unlocked then true else false
    (db.map (fun r =>
        if inLockScope classroom term session r then { r with locked := new_status } else r),
     if new_status then ToggleOutcome.locked else ToggleOutcome.unlocked)

/-- Outcome of a bulk score save through `upload_result`. -/
inductive UploadOutcome where
  | lockedRefused
  | saved
deriving DecidableEq, Repr

/-- One effective posted row of the bulk form: a student with both scores
present and parsed. -/
structure ScoreEntry where
  student : Nat
  test_score : ℚ
  exam_score : ℚ
deriving DecidableEq, Repr

/-- The `update_or_create` key of `upload_result`:
`(student, subject, term, session)`. -/
def resultKey (student subject term session : Nat) (r : ResultRec) : Bool :=
  r.student == student && r.subject == subject && r.term == term && r.session == session

/-- `Result.objects.update_or_create(student=..., subject_id=..., term=...,
session=..., defaults={test_score, exam_score, grade, comment})`: update the
matching row's four default fields, or insert a fresh unlocked row. -/
def update_or_create (db : List ResultRec) (classroomOf : Nat → Nat)
    (student subject term session : Nat) (t e : ℚ) (g c : String) : List ResultRec :=
  if db.any (resultKey student subject term session) then
    db.map (fun r =>
      if resultKey student subject term session r then
        { r with test_score := t, exam_score := e, grade := g, comment := c }
      else r)
  else
    db ++ [{ student := student, classroom := classroomOf student, subject := subject,
             term := term, session := session, test_score := t, exam_score := e,
             grade := g, comment := c, locked := false }]

/-- The per-student body of the save loop of `upload_result`: grade the pair
of scores with the bulk band table and upsert the `Result` row. -/
def saveOne (classroomOf : Nat → Nat) (subject term session : Nat)
    (db : List ResultRec) (entry : ScoreEntry) : List ResultRec :=
  let gc := uploadGrade entry.test_score entry.exam_score
  update_or_create db classroomOf entry.student subject term session
    entry.test_score entry.exam_score gc.1 gc.2

/-- The lock-scope filter of the teacher branch of `upload_result`: results of
the scope `(subject, classroom, term, session)` that are locked. -/
def lockedInScope (classroom subject term session : Nat) (r : ResultRec) : Bool :=
  r.term == term && r.session == session && r.subject == subject &&
    r.classroom == classroom && r.locked

/-- The `save_results` branch of `upload_result` (`core/views.py`): a teacher
request against a scope containing any locked result is refused before any
write; otherwise every posted entry is graded and upserted. -/
def upload_result (user_type : String) (classroomOf : Nat → Nat)
    (classroom subject term session : Nat) (entries : List ScoreEntry)
    (db : List ResultRec) : List ResultRec × UploadOutcome :=
  if user_type == "teacher" && db.any (lockedInScope classroom subject term session) then
    (db, UploadOutcome.lockedRefused)
  else
    (entries.foldl (saveOne classroomOf subject term session) db, UploadOutcome.saved)

/-- The CBT tables touched by `start_cbt_test`: `CBTSubmission` rows as
`(student, test)` pairs (ids are list positions), `CBTAnswer` rows as
`(submission, question, selected_option)`. -/
structure CBTState where
  submissions : List (Nat × Nat)
  answers : List (Nat × Nat × String)
deriving DecidableEq, Repr

/-- Outcome of an attempt to start a CBT test. -/
inductive StartOutcome where
  | alreadyTaken
  | started
deriving DecidableEq, Repr

/-- `start_cbt_test` (`core/views.py`): if a submission for `(student, test)`
already exists, render the already-taken page and write nothing; otherwise
create one submission and one answer row per question the form posted an
option for. -/
def start_cbt_test (st : CBTState) (student test : Nat)
    (questions : List Nat) (posted : Nat → Option String) : CBTState × StartOutcome :=
  if st.submissions.any (fun p => p.1 == student && p.2 == test) then
    (st, StartOutcome.alreadyTaken)
  else
    let subId := st.submissions.length
    let newAnswers := questions.filterMap (fun q => (posted q).map (fun sel => (subId, q, sel)))
    ({ submissions := st.submissions ++ [(student, test)],
       answers := st.answers ++ newAnswers }, StartOutcome.started)

/-- A `Session` (or `Term`) row: both models carry `is_current` and a primary
key. -/
structure SessionRow where
  id : Nat
  is_current : Bool
deriving DecidableEq, Repr

/-- `Session.save` (`core/models.py`; `Term.save` is the identical code for
`Term` rows): when the saved row has `is_current = True`, first clear
`is_current` on every other row, then write the row itself (update in place
when the id exists, insert otherwise). -/
def Session.save (db : List SessionRow) (row : SessionRow) : List SessionRow :=
  let db1 := if row.is_current then
      db.map (fun r => if r.id != row.id then { r with is_current := false } else r)
    else db
  if db1.any (fun r => r.id == row.id) then
    db1.map (fun r => if r.id == row.id then row else r)
  else db1 ++ [row]

/-- At most one row of the table has `is_current = True`. -/
def atMostOneCurrent (db : List SessionRow) : Prop :=
  db.countP (fun r => r.is_current) ≤ 1

/-- A fixture `Result` row in classroom 1, term 1, session 1, used by the
concrete lock-toggle scenarios. -/
def demoResult (locked : Bool) : ResultRec :=
  { student := 0, classroom := 1, subject := 1, term := 1, session := 1,
    test_score := 0, exam_score := 0, grade := "", comment := "", locked := locked }

/-- C3. CBT scoring: `total` is the number of recorded answers (independent of
any configured question count), `correct` counts answers matching their
question's correct option, and `percentage` is `correct / total * 100` rounded
to 2 places, with 0 substituted when `total = 0` so no division by zero is
reached. -/
theorem cbt_score_spec (answers : List CBTAnswerRec) (configured_total : Nat) :
    (cbt_score answers).2.1 = answers.length ∧
    (answers.length ≠ configured_total → (cbt_score answers).2.1 ≠ configured_total) ∧
    (cbt_score answers).1 =
      (answers.filter (fun a => a.selected_option == a.correct_option)).length ∧
    (answers.length ≠ 0 →
      (cbt_score answers).2.2 =
        roundTo2 (((cbt_score answers).1 : ℚ) / (answers.length : ℚ) * 100)) ∧
    (answers.length = 0 → (cbt_score answers).2.2 = 0) := by
  refine ⟨rfl, fun h => h, ?_, ?_, ?_⟩
  · simp only [cbt_score]
    exact List.countP_eq_length_filter _ _
  · intro h
    simp only [cbt_score]
    rw [if_pos (Nat.pos_of_ne_zero h)]
  · intro h
    simp only [cbt_score, h]
    norm_num [roundTo2, roundHalfEven]

/-- Witness for `cbt_score_spec` on a two-answer submission (one correct) and
on the empty submission. -/
theorem cbt_score_spec_witness :
    (cbt_score [⟨1, "A", "A"⟩, ⟨2, "B", "C"⟩]).2.1 ≠ 10 ∧
    (cbt_score [⟨1, "A", "A"⟩, ⟨2, "B", "C"⟩]).2.2 =
      roundTo2 (((cbt_score [⟨1, "A", "A"⟩, ⟨2, "B", "C"⟩]).1 : ℚ) /
        (([(⟨1, "A", "A"⟩ : CBTAnswerRec), ⟨2, "B", "C"⟩].length : Nat) : ℚ) * 100) ∧
    (cbt_score ([] : List CBTAnswerRec)).2.2 = 0 :=
  ⟨(cbt_score_spec [⟨1, "A", "A"⟩, ⟨2, "B", "C"⟩] 10).2.1 (by decide),
   (cbt_score_spec [⟨1, "A", "A"⟩, ⟨2, "B", "C"⟩] 10).2.2.2.1 (by decide),
   (cbt_score_spec [] 0).2.2.2.2 rfl⟩

/-- On a non-empty scope, the toggle maps every in-scope record's lock to the
result of the any-unlocked test and reports the transition accordingly. -/
theorem toggle_nonempty (db : List ResultRec) (c t s : Nat)
    (hne : (db.filter (inLockScope c t s)).isEmpty = false) :
    toggle_class_results_lock db c t s =
      (db.map (fun r =>
          if inLockScope c t s r then
            { r with locked := (db.filter (inLockScope c t s)).any (fun r2 => !r2.locked) }
          else r),
       if (db.filter (inLockScope c t s)).any (fun r2 => !r2.locked) then ToggleOutcome.locked
       else ToggleOutcome.unlocked) := by
  cases hany : (db.filter (inLockScope c t s)).any (fun r2 => !r2.locked) <;>
    simp [toggle_class_results_lock, hne, hany]

/-- After a toggle on a non-empty scope, the lock flag of every in-scope
record equals the any-unlocked test on the prior scoped set. -/
theorem toggle_scope_locked (db : List ResultRec) (c t s : Nat)
    (hne : (db.filter (inLockScope c t s)).isEmpty = false) :
    ∀ r ∈ (toggle_class_results_lock db c t s).1, inLockScope c t s r = true →
      r.locked = (db.filter (inLockScope c t s)).any (fun r2 => !r2.locked) := by
  rw [toggle_nonempty db c t s hne]
  intro r hr hscope
  obtain ⟨r0, hr0, rfl⟩ := List.mem_map.mp hr
  by_cases h0 : inLockScope c t s r0 = true
  · rw [if_pos h0]
  · rw [if_neg h0] at hscope
    exact absurd hscope h0

/-- C4. The bulk lock toggle on a scope: any unlocked record present locks the
whole scoped set; a non-empty all-locked set gets unlocked; an empty set is a
reported no-op that changes nothing; a toggled non-empty scope is uniform; and
the {Locked, Unlocked, Locked} scenario locks everything, then a second run
unlocks everything. -/
theorem toggle_class_results_lock_spec (db : List ResultRec) (c t s : Nat) :
    ((db.filter (inLockScope c t s)).any (fun r => !r.locked) = true →
      (toggle_class_results_lock db c t s).2 = ToggleOutcome.locked ∧
      ∀ r ∈ (toggle_class_results_lock db c t s).1,
        inLockScope c t s r = true → r.locked = true) ∧
    (db.filter (inLockScope c t s) ≠ [] →
      (∀ r ∈ db.filter (inLockScope c t s), r.locked = true) →
      (toggle_class_results_lock db c t s).2 = ToggleOutcome.unlocked ∧
      ∀ r ∈ (toggle_class_results_lock db c t s).1,
        inLockScope c t s r = true → r.locked = false) ∧
    (db.filter (inLockScope c t s) = [] →
      toggle_class_results_lock db c t s = (db, ToggleOutcome.noop)) ∧
    (db.filter (inLockScope c t s) ≠ [] →
      ∀ r ∈ (toggle_class_results_lock db c t s).1,
        ∀ r2 ∈ (toggle_class_results_lock db c t s).1,
          inLockScope c t s r = true → inLockScope c t s r2 = true →
            r.locked = r2.locked) ∧
    (toggle_class_results_lock
        [demoResult true, demoResult false, demoResult true] 1 1 1 =
      ([demoResult true, demoResult true, demoResult true], ToggleOutcome.locked)) ∧
    (toggle_class_results_lock
        [demoResult true, demoResult true, demoResult true] 1 1 1 =
      ([demoResult false, demoResult false, demoResult false], ToggleOutcome.unlocked)) := by
  refine ⟨?_, ?_, ?_, ?_, by decide, by decide⟩
  · intro hany
    have hne : (db.filter (inLockScope c t s)).isEmpty = false := by
      cases hfe : db.filter (inLockScope c t s) with
      | nil => rw [hfe] at hany; simp at hany
      | cons a l => rfl
    refine ⟨?_, ?_⟩
    · rw [toggle_nonempty db c t s hne]
      simp [hany]
    · intro r hr hscope
      rw [toggle_scope_locked db c t s hne r hr hscope, hany]
  · intro hfe hall
    have hne : (db.filter (inLockScope c t s)).isEmpty = false := by
      cases hfe2 : db.filter (inLockScope c t s) with
      | nil => exact absurd hfe2 hfe
      | cons a l => rfl
    have hany : (db.filter (inLockScope c t s)).any (fun r => !r.locked) = false := by
      rw [List.any_eq_false]
      intro x hx
      rw [hall x hx]
      simp
    refine ⟨?_, ?_⟩
    · rw [toggle_nonempty db c t s hne]
      simp [hany]
    · intro r hr hscope
      rw [toggle_scope_locked db c t s hne r hr hscope, hany]
  · intro hfe
    have hemp : (db.filter (inLockScope c t s)).isEmpty = true := by rw [hfe]; rfl
    simp [toggle_class_results_lock, hemp]
  · intro hfe
    have hne : (db.filter (inLockScope c t s)).isEmpty = false := by
      cases hfe2 : db.filter (inLockScope c t s) with
      | nil => exact absurd hfe2 hfe
      | cons a l => rfl
    intro r hr r2 hr2 h1 h2
    rw [toggle_scope_locked db c t s hne r hr h1,
      toggle_scope_locked db c t s hne r2 hr2 h2]

/-- Witness for `toggle_class_results_lock_spec` on a concrete mixed scope and
an empty scope. -/
theorem toggle_class_results_lock_spec_witness :
    (toggle_class_results_lock [demoResult true, demoResult false] 1 1 1).2 =
      ToggleOutcome.locked ∧
    (toggle_class_results_lock [demoResult true, demoResult true] 1 1 1).2 =
      ToggleOutcome.unlocked ∧
    toggle_class_results_lock [demoResult true] 2 1 1 =
      ([demoResult true], ToggleOutcome.noop) := by
  refine ⟨((toggle_class_results_lock_spec [demoResult true, demoResult false] 1 1 1).1
      (by decide)).1, ?_, ?_⟩
  · exact ((toggle_class_results_lock_spec [demoResult true, demoResult true] 1 1 1).2.1
      (by decide) (by decide)).1
  · exact (toggle_class_results_lock_spec [demoResult true] 2 1 1).2.2.1 (by decide)

/-- C5. A teacher save against a scope that contains any locked result is
refused with the locked signal before any write: the result table comes back
exactly as it was, so every record keeps its prior scores, grade, comment and
lock flag. -/
theorem upload_result_teacher_locked (classroomOf : Nat → Nat)
    (classroom subject term session : Nat) (entries : List ScoreEntry)
    (db : List ResultRec)
    (hlocked : db.any (lockedInScope classroom subject term session) = true) :
    upload_result "teacher" classroomOf classroom subject term session entries db =
      (db, UploadOutcome.lockedRefused) ∧
    ∀ r ∈ db,
      r ∈ (upload_result "teacher" classroomOf classroom subject term session entries db).1 := by
  have heq : upload_result "teacher" classroomOf classroom subject term session entries db =
      (db, UploadOutcome.lockedRefused) := by
    simp [upload_result, hlocked]
  exact ⟨heq, fun r hr => by rw [heq]; exact hr⟩

/-- Witness for `upload_result_teacher_locked`: one locked row in scope, one
pending entry, nothing written. -/
theorem upload_result_teacher_locked_witness :
    upload_result "teacher" (fun _ => 1) 1 1 1 1 [⟨0, 50, 40⟩] [demoResult true] =
      ([demoResult true], UploadOutcome.lockedRefused) :=
  (upload_result_teacher_locked (fun _ => 1) 1 1 1 1 [⟨0, 50, 40⟩] [demoResult true]
    (by decide)).1

/-- C10. An admin save performs no lock check: whatever the lock flags in the
scope, every posted entry is graded and upserted, and an upsert against an
existing row (locked or not) overwrites its scores, grade and comment while
leaving its `locked` flag as it was. -/
theorem upload_result_admin_no_lock_check :
    (∀ (classroomOf : Nat → Nat) (classroom subject term session : Nat)
        (entries : List ScoreEntry) (db : List ResultRec),
      upload_result "admin" classroomOf classroom subject term session entries db =
        (entries.foldl (saveOne classroomOf subject term session) db,
         UploadOutcome.saved)) ∧
    (∀ (db : List ResultRec) (classroomOf : Nat → Nat)
        (student subject term session : Nat) (t e : ℚ) (g c : String)
        (r : ResultRec), r ∈ db → resultKey student subject term session r = true →
      { r with test_score := t, exam_score := e, grade := g, comment := c } ∈
        update_or_create db classroomOf student subject term session t e g c) ∧
    (∀ (t e : ℚ) (g c : String) (r : ResultRec),
      ({ r with test_score := t, exam_score := e, grade := g, comment := c } :
        ResultRec).locked = r.locked) := by
  refine ⟨?_, ?_, fun t e g c r => rfl⟩
  · intro classroomOf classroom subject term session entries db
    simp [upload_result]
  · intro db classroomOf student subject term session t e g c r hr hkey
    have hany : db.any (resultKey student subject term session) = true :=
      List.any_eq_true.mpr ⟨r, hr, hkey⟩
    simp only [update_or_create, hany, if_true]
    exact List.mem_map.mpr ⟨r, hr, by rw [if_pos hkey]⟩

/-- Witness for `upload_result_admin_no_lock_check`: the admin branch saves
over a locked row, rewrites its scores and keeps it locked. -/
theorem upload_result_admin_no_lock_check_witness :
    upload_result "admin" (fun _ => 1) 1 1 1 1 [] [demoResult true] =
      ([demoResult true], UploadOutcome.saved) ∧
    ({ demoResult true with
        test_score := 50, exam_score := 40, grade := "A*", comment := "x" } : ResultRec) ∈
      update_or_create [demoResult true] (fun _ => 1) 0 1 1 1 50 40 "A*" "x" ∧
    ({ demoResult true with
        test_score := 50, exam_score := 40, grade := "A*", comment := "x" } :
      ResultRec).locked = (demoResult true).locked :=
  ⟨upload_result_admin_no_lock_check.1 (fun _ => 1) 1 1 1 1 [] [demoResult true],
   upload_result_admin_no_lock_check.2.1 [demoResult true] (fun _ => 1) 0 1 1 1
     50 40 "A*" "x" (demoResult true) (List.mem_singleton.mpr rfl) (by decide),
   upload_result_admin_no_lock_check.2.2 50 40 "A*" "x" (demoResult true)⟩

/-- C8. If a submission for `(student, test)` already exists, a further start
attempt creates no submission and no answer rows and reports the test as
already taken; consequently at-most-one-submission-per-pair is preserved by
every start attempt. -/
theorem start_cbt_test_spec :
    (∀ (st : CBTState) (student test : Nat) (questions : List Nat)
        (posted : Nat → Option String),
      st.submissions.any (fun p => p.1 == student && p.2 == test) = true →
      start_cbt_test st student test questions posted = (st, StartOutcome.alreadyTaken)) ∧
    (∀ (st : CBTState) (student test : Nat) (questions : List Nat)
        (posted : Nat → Option String),
      (∀ s2 t2 : Nat, st.submissions.countP (fun p => p.1 == s2 && p.2 == t2) ≤ 1) →
      ∀ s2 t2 : Nat,
        (start_cbt_test st student test questions posted).1.submissions.countP
          (fun p => p.1 == s2 && p.2 == t2) ≤ 1) := by
  constructor
  · intro st student test questions posted hex
    simp [start_cbt_test, hex]
  · intro st student test questions posted hinv s2 t2
    by_cases hex : st.submissions.any (fun p => p.1 == student && p.2 == test) = true
    · rw [show start_cbt_test st student test questions posted =
          (st, StartOutcome.alreadyTaken) by simp [start_cbt_test, hex]]
      exact hinv s2 t2
    · have hex2 : st.submissions.any (fun p => p.1 == student && p.2 == test) = false :=
        Bool.eq_false_iff.mpr hex
      simp only [start_cbt_test, hex2, Bool.false_eq_true, if_false]
      rw [List.countP_append]
      by_cases hpair : student = s2 ∧ test = t2
      · obtain ⟨rfl, rfl⟩ := hpair
        have hzero : st.submissions.countP (fun p => p.1 == student && p.2 == test) = 0 := by
          rw [List.countP_eq_zero]
          intro a ha
          exact List.any_eq_false.mp hex2 a ha
        rw [hzero]
        simp [List.countP_cons]
      · have hone : List.countP (fun p => p.1 == s2 && p.2 == t2)
            [((student, test) : Nat × Nat)] = 0 := by
          rw [List.countP_eq_zero]
          intro a ha
          rw [List.mem_singleton.mp ha]
          simp only [Bool.and_eq_true, beq_iff_eq]
          intro hc
          exact hpair ⟨hc.1, hc.2⟩
        rw [hone]
        simpa using hinv s2 t2

/-- Witness for `start_cbt_test_spec` with one existing submission. -/
theorem start_cbt_test_spec_witness :
    start_cbt_test ⟨[(7, 3)], []⟩ 7 3 [1, 2] (fun _ => some "A") =
      (⟨[(7, 3)], []⟩, StartOutcome.alreadyTaken) ∧
    (start_cbt_test ⟨[(7, 3)], []⟩ 7 3 [1, 2] (fun _ => some "A")).1.submissions.countP
      (fun p => p.1 == 7 && p.2 == 3) ≤ 1 :=
  ⟨start_cbt_test_spec.1 ⟨[(7, 3)], []⟩ 7 3 [1, 2] (fun _ => some "A") (by decide),
   start_cbt_test_spec.2 ⟨[(7, 3)], []⟩ 7 3 [1, 2] (fun _ => some "A")
     (by intro s2 t2; rw [List.countP_singleton]; split_ifs <;> simp) 7 3⟩

/-- With pairwise-distinct primary keys, a row's key matches at most one row. -/
theorem countP_id_le_one (db : List SessionRow)
    (hnd : (db.map (fun r => r.id)).Nodup) (x : Nat) :
    db.countP (fun r => r.id == x) ≤ 1 := by
  induction db with
  | nil => simp
  | cons a l ih =>
    rw [List.map_cons, List.nodup_cons] at hnd
    rw [List.countP_cons]
    by_cases hax : a.id = x
    · have hzero : l.countP (fun r => r.id == x) = 0 := by
        rw [List.countP_eq_zero]
        intro r hr hx
        rw [beq_iff_eq] at hx
        apply hnd.1
        rw [hax, ← hx]
        exact List.mem_map_of_mem (fun r2 => r2.id) hr
      simp [hzero, hax]
    · have : (a.id == x) = false := by simpa using hax
      simp only [this, if_false]
      simpa using ih hnd.2

/-- C9. `Session.save` (and the identical `Term.save`): with distinct primary
keys, saving preserves "at most one current row"; saving a row flagged current
first clears the flag everywhere else, leaving exactly one current row, the
saved one; saving a row flagged not-current leaves every other row untouched. -/
theorem session_save_spec (db : List SessionRow) (row : SessionRow)
    (hnd : (db.map (fun r => r.id)).Nodup) :
    (atMostOneCurrent db → atMostOneCurrent (Session.save db row)) ∧
    (row.is_current = true →
      (Session.save db row).countP (fun r => r.is_current) = 1 ∧
      ∀ r ∈ Session.save db row, r.is_current = true → r = row) ∧
    (row.is_current = false →
      ∀ r ∈ db, r.id ≠ row.id → r ∈ Session.save db row) := by
  have hfid : ∀ r : SessionRow,
      ((if r.id != row.id then { r with is_current := false } else r) : SessionRow).id = r.id := by
    intro r
    by_cases h : r.id = row.id
    · simp [h]
    · simp [h]
  have hcurcase : row.is_current = true →
      (Session.save db row).countP (fun r => r.is_current) = 1 ∧
      ∀ r ∈ Session.save db row, r.is_current = true → r = row := by
    intro hcur
    simp only [Session.save, hcur, if_true]
    by_cases hex : (db.map (fun r => if r.id != row.id then { r with is_current := false } else r)).any
        (fun r => r.id == row.id) = true
    · rw [if_pos hex, List.map_map]
      have hcomp : ((fun r : SessionRow => if r.id == row.id then row else r) ∘
          (fun r : SessionRow => if r.id != row.id then { r with is_current := false } else r)) =
          fun r : SessionRow => if r.id == row.id then row else { r with is_current := false } := by
        funext r
        by_cases h : r.id = row.id
        · simp [h]
        · simp [h]
      rw [hcomp]
      have hpt : ∀ r ∈ db,
          ((fun r2 : SessionRow => (if r2.id == row.id then row else { r2 with is_current := false }).is_current) r = true ↔
           (fun r2 : SessionRow => r2.id == row.id) r = true) := by
        intro r _
        by_cases h : r.id = row.id
        · simp [h, hcur]
        · simp [h]
      constructor
      · rw [List.countP_map]
        simp only [Function.comp_def]
        rw [List.countP_congr hpt]
        have hle := countP_id_le_one db hnd row.id
        have hpos : 0 < db.countP (fun r => r.id == row.id) := by
          rw [List.countP_pos_iff]
          obtain ⟨x, hx, hxid⟩ := List.any_eq_true.mp hex
          obtain ⟨r0, hr0, rfl⟩ := List.mem_map.mp hx
          refine ⟨r0, hr0, ?_⟩
          rw [← hfid r0]
          exact hxid
        omega
      · intro r hr hrc
        obtain ⟨r0, hr0, rfl⟩ := List.mem_map.mp hr
        by_cases h : r0.id = row.id
        · simp [h]
        · simp [h] at hrc
    · have hex2 : (db.map (fun r => if r.id != row.id then { r with is_current := false } else r)).any
          (fun r => r.id == row.id) = false := Bool.eq_false_iff.mpr hex
      rw [if_neg (by rw [hex2]; exact Bool.false_ne_true)]
      have hmap0 : (db.map (fun r => if r.id != row.id then { r with is_current := false } else r)).countP
          (fun r => r.is_current) = 0 := by
        rw [List.countP_eq_zero]
        intro x hx hxc
        obtain ⟨r0, hr0, rfl⟩ := List.mem_map.mp hx
        by_cases h : r0.id = row.id
        · have : r0.id == row.id := by simpa using h
          have hmem : (if r0.id != row.id then ({ r0 with is_current := false } : SessionRow) else r0) ∈
              db.map (fun r => if r.id != row.id then { r with is_current := false } else r) :=
            List.mem_map_of_mem _ hr0
          have := List.any_eq_false.mp hex2 _ hmem
          rw [hfid r0] at this
          simp [h] at this
        · simp [h] at hxc
      constructor
      · rw [List.countP_append, hmap0, List.countP_singleton]
        simp [hcur]
      · intro r hr hrc
        rcases List.mem_append.mp hr with hr1 | hr2
        · exfalso
          have := List.countP_eq_zero.mp hmap0 r hr1
          simp [hrc] at this
        · exact List.mem_singleton.mp hr2
  refine ⟨?_, hcurcase, ?_⟩
  · intro hinv
    by_cases hcur : row.is_current = true
    · have := (hcurcase hcur).1
      unfold atMostOneCurrent
      omega
    · have hcur2 : row.is_current = false := Bool.eq_false_iff.mpr hcur
      unfold atMostOneCurrent at hinv ⊢
      simp only [Session.save, hcur2, Bool.false_eq_true, if_false]
      by_cases hex : db.any (fun r => r.id == row.id) = true
      · rw [if_pos hex, List.countP_map]
        calc db.countP ((fun r : SessionRow => r.is_current) ∘
              (fun r : SessionRow => if r.id == row.id then row else r))
            ≤ db.countP (fun r => r.is_current) := by
              apply List.countP_mono_left
              intro r _ hc
              simp only [Function.comp] at hc
              by_cases h : r.id = row.id
              · rw [if_pos (by simpa using h)] at hc
                rw [hcur2] at hc
                exact absurd hc (by simp)
              · rwa [if_neg (by simpa using h)] at hc
          _ ≤ 1 := hinv
      · rw [if_neg (by rw [Bool.eq_false_iff.mpr hex]; exact Bool.false_ne_true)]
        rw [List.countP_append, List.countP_singleton]
        simp [hcur2]
        omega
  · intro hcur r hr hne
    simp only [Session.save, hcur, Bool.false_eq_true, if_false]
    by_cases hex : db.any (fun r2 => r2.id == row.id) = true
    · rw [if_pos hex]
      refine List.mem_map.mpr ⟨r, hr, ?_⟩
      rw [if_neg (by simpa using hne)]
    · rw [if_neg (by rw [Bool.eq_false_iff.mpr hex]; exact Bool.false_ne_true)]
      exact List.mem_append_left _ hr

/-- Witness for `session_save_spec` on concrete session tables. -/
theorem session_save_spec_witness :
    atMostOneCurrent (Session.save [⟨1, true⟩, ⟨2, false⟩] ⟨3, true⟩) ∧
    (Session.save [⟨1, true⟩, ⟨2, false⟩] ⟨3, true⟩).countP (fun r => r.is_current) = 1 ∧
    (⟨1, true⟩ : SessionRow) ∈ Session.save [⟨1, true⟩] ⟨2, false⟩ := by
  refine ⟨(session_save_spec [⟨1, true⟩, ⟨2, false⟩] ⟨3, true⟩ (by decide)).1
      (by unfold atMostOneCurrent; decide),
    ((session_save_spec [⟨1, true⟩, ⟨2, false⟩] ⟨3, true⟩ (by decide)).2.1 rfl).1,
    (session_save_spec [⟨1, true⟩] ⟨2, false⟩ (by decide)).2.2 rfl ⟨1, true⟩
      (by decide) (by decide)⟩

end SchoolMgt
